import Mathlib

/-!
Shallow embedding of the ExecuTorch FFI shim (`executorch_ffi.cpp` /
`executorch_ffi.h`) and proofs about its boundary behaviour.

Modelling conventions:
* C pointers that may be null are `Option`; an out-parameter is modelled by a
  `Bool` flag saying whether the caller passed a non-null pointer, and the
  value written through it is returned as an `Option` component (`none` means
  the function never wrote through the pointer).
* `size_t` arithmetic is `Nat` arithmetic reduced mod `2 ^ 64` at each
  multiplication, exactly where the C code multiplies in `size_t`.
* Byte buffers are `List Nat`; `memcpy(dst, src, n)` with a valid `src`
  becomes taking the first `n` bytes of the source list.
* The wrapped inference engine (program loading, method resolution, forward
  execution) is external to this repository; its responses are supplied as an
  explicit oracle argument so that every claim is settled for all possible
  engine behaviours.
-/

/-- Error codes of the FFI boundary (`ETErrorCode` in `executorch_ffi.h`). -/
inductive ETErrorCode
  | ok
  | invalidArgument
  | outOfMemory
  | modelLoadFailed
  | inferenceFailed
  | invalidState
  | unsupported
  | ioError
  | internal
deriving DecidableEq

/-- Stable integer values of `ETErrorCode` as declared in the header. -/
def ETErrorCode.toInt : ETErrorCode → Int
  | .ok => 0
  | .invalidArgument => 1
  | .outOfMemory => 2
  | .modelLoadFailed => 3
  | .inferenceFailed => 4
  | .invalidState => 5
  | .unsupported => 6
  | .ioError => 7
  | .internal => 99

/-- `ETStatus`: code plus optional message and location strings
(`message`/`location` are `char*` that may be null). -/
structure ETStatus where
  code : ETErrorCode
  message : Option String
  location : Option String
deriving DecidableEq

/-- `create_status`: builds a status; `strdup` of a null pointer is modelled by
`Option.map`, i.e. the stored string is null exactly when the argument is. -/
def create_status (code : ETErrorCode) (message : Option String)
    (location : Option String) : ETStatus :=
  { code := code, message := message, location := location }

/-- `create_ok_status`: `create_status(ET_OK, nullptr, nullptr)`. -/
def create_ok_status : ETStatus :=
  create_status .ok none none

/-- Dtype enumeration `ETDType` (stable values 0..7). -/
inductive ETDType
  | float32
  | float64
  | int64
  | int32
  | int16
  | int8
  | uint8
  | bool
deriving DecidableEq

/-- `dtype_size`: element size in bytes.  The C `default: return 0` arm is
unreachable for the eight declared enumerators, which this type enumerates
exactly. -/
def dtype_size : ETDType → Nat
  | .float32 => 4
  | .float64 => 8
  | .int64 => 8
  | .int32 => 4
  | .int16 => 2
  | .int8 => 1
  | .uint8 => 1
  | .bool => 1

/-- The engine's `ScalarType` enumeration: the eight cases the shim handles by
name, plus `unknown tag` standing for every other enumerator of the engine's
(much larger) scalar-type enumeration. -/
inductive ScalarType
  | float
  | double
  | long
  | int
  | short
  | char
  | byte
  | bool
  | unknown (tag : Nat)
deriving DecidableEq

/-- `to_scalar_type`: ETDType → engine scalar type (switch with
`default: return Float`, unreachable for the eight enumerators). -/
def to_scalar_type : ETDType → ScalarType
  | .float32 => .float
  | .float64 => .double
  | .int64 => .long
  | .int32 => .int
  | .int16 => .short
  | .int8 => .char
  | .uint8 => .byte
  | .bool => .bool

/-- `from_scalar_type`: engine scalar type → ETDType; the `default` arm of the
C switch maps every unlisted scalar type to `ET_DTYPE_FLOAT32`. -/
def from_scalar_type : ScalarType → ETDType
  | .float => .float32
  | .double => .float64
  | .long => .int64
  | .int => .int32
  | .short => .int16
  | .char => .int8
  | .byte => .uint8
  | .bool => .bool
  | .unknown _ => .float32

/-- One `size_t` multiplication: 64-bit wrap-around. -/
def sizeTMul (a b : Nat) : Nat :=
  a * b % 2 ^ 64

/-- Conversion of a (possibly negative) C integer to `size_t`. -/
def sizeTOfInt (d : Int) : Nat :=
  (d % (2 ^ 64 : Int)).toNat

/-- Wrap-around conversion to a signed 32-bit value
(`static_cast<SizesType>` on an `int64_t`). -/
def int32cast (d : Int) : Int :=
  (d + 2 ^ 31) % 2 ^ 32 - 2 ^ 31

/-- Mathematical (unbounded) product of a shape, used to state claims. -/
def natProd (shape : List Int) : Nat :=
  (shape.map Int.toNat).prod

/-- `memcpy(dst, src, n)` into a buffer of length `n` that was value-initialized
to zero: the first `n` bytes of `src`, zero-padded if `src` is shorter (a
shorter source would be undefined behaviour in C; theorems that depend on the
copied contents assume the source is long enough). -/
def copyBytes (n : Nat) (src : List Nat) : List Nat :=
  src.take n ++ List.replicate (n - src.length) 0

/-- `std::vector::resize(n)` on a vector of vectors: truncate or pad with empty
vectors so the length becomes exactly `n`. -/
def resizeTo {α : Type} (n : Nat) (pad : α) (l : List α) : List α :=
  l.take n ++ List.replicate (n - l.length) pad

/-- `ETTensor`: dtype, rank, shape and an owned contiguous byte buffer. -/
structure ETTensor where
  dtype : ETDType
  rank : Int
  shape : List Int
  data : List Nat
deriving DecidableEq

/-- `et_tensor_create(data, data_size, shape, rank, dtype, out)`.
Arguments: `data` is the caller's byte buffer (null or its contents),
`shape` the caller's dimension array (null or its contents, of which the
first `rank` entries are read), `out_nonnull` whether the out-parameter was
passed.  Returns the status and the value written to `*out` (`none` when
`*out` was never written). -/
def et_tensor_create (data : Option (List Nat)) (data_size : Nat)
    (shape : Option (List Int)) (rank : Int) (dtype : ETDType)
    (out_nonnull : Bool) : ETStatus × Option ETTensor :=
  if out_nonnull = false then
    (create_status .invalidArgument (some "out pointer is null")
      (some "et_tensor_create"), none)
  else if shape = none ∨ rank ≤ 0 then
    (create_status .invalidArgument (some "invalid shape or rank")
      (some "et_tensor_create"), none)
  else
    let dims := (shape.getD []).take rank.toNat
    if dims.any (fun d => d ≤ 0) then
      (create_status .invalidArgument
        (some "shape dimensions must be positive")
        (some "et_tensor_create"), none)
    else
      let element_count := dims.foldl (fun acc d => sizeTMul acc d.toNat) 1
      let expected_size := sizeTMul element_count (dtype_size dtype)
      if data_size ≠ expected_size then
        (create_status .invalidArgument
          (some ("data size mismatch: expected " ++ toString expected_size
            ++ ", got " ++ toString data_size))
          (some "et_tensor_create"), none)
      else
        let tdata : List Nat :=
          if data ≠ none ∧ 0 < data_size then (data.getD []).take data_size
          else []
        (create_ok_status,
          some { dtype := dtype, rank := rank, shape := dims, data := tdata })

/-- `et_tensor_dtype`: `ET_DTYPE_FLOAT32` on a null handle. -/
def et_tensor_dtype (tensor : Option ETTensor) : ETDType :=
  match tensor with
  | none => .float32
  | some t => t.dtype

/-- `et_tensor_rank`: 0 on a null handle. -/
def et_tensor_rank (tensor : Option ETTensor) : Int :=
  match tensor with
  | none => 0
  | some t => t.rank

/-- `et_tensor_shape`: null on a null handle or when the shape vector is empty,
otherwise a view of the shape vector. -/
def et_tensor_shape (tensor : Option ETTensor) : Option (List Int) :=
  match tensor with
  | none => none
  | some t => if t.shape.isEmpty then none else some t.shape

/-- `et_tensor_data_size`: `data.size()`, 0 on a null handle. -/
def et_tensor_data_size (tensor : Option ETTensor) : Nat :=
  match tensor with
  | none => 0
  | some t => t.data.length

/-- `et_tensor_data`: null on a null handle or empty buffer, otherwise a view
of the byte buffer. -/
def et_tensor_data (tensor : Option ETTensor) : Option (List Nat) :=
  match tensor with
  | none => none
  | some t => if t.data.isEmpty then none else some t.data

/-- A tensor view inside the engine: scalar type, dimension array, and the
backing byte buffer (`const_data_ptr` may be null). -/
structure EngineTensor where
  scalar_type : ScalarType
  sizes : List Int
  bytes : Option (List Nat)
deriving DecidableEq

/-- An engine `EValue`: the shim only distinguishes tensor values
(`isTensor()`) from everything else. -/
inductive EValue
  | tensor (t : EngineTensor)
  | nonTensor
deriving DecidableEq

/-- Number of elements computed by `evalue_to_tensor`:
`size_t numel` multiplied by each dimension in `size_t` arithmetic. -/
def engineNumel (sizes : List Int) : Nat :=
  sizes.foldl (fun acc d => sizeTMul acc (sizeTOfInt d)) 1

/-- Byte count `numel * dtype_size(result->dtype)` computed by
`evalue_to_tensor` (in `size_t` arithmetic). -/
def engineDataSize (t : EngineTensor) : Nat :=
  sizeTMul (engineNumel t.sizes) (dtype_size (from_scalar_type t.scalar_type))

/-- `evalue_to_tensor`: converts an engine output value to a freshly allocated
`ETTensor`; returns null when the value is not a tensor.  The buffer is
`resize`d (zero-filled) to the computed byte count and then `memcpy`d from the
engine buffer when that pointer is non-null. -/
def evalue_to_tensor (evalue : EValue) : Option ETTensor :=
  match evalue with
  | .nonTensor => none
  | .tensor t =>
      let dtype := from_scalar_type t.scalar_type
      let data_size := engineDataSize t
      some { dtype := dtype
             rank := (t.sizes.length : Int)
             shape := t.sizes
             data :=
               match t.bytes with
               | some src => copyBytes data_size src
               | none => List.replicate data_size 0 }

/-- `ETModule`: loaded flag, cached arities, the retained model bytes, the
per-call scratch storage for input shapes and bytes, and the engine's forward
entry point (`module->forward`), modelled as an oracle returning either the
output values or failure. -/
structure ETModule where
  loaded : Bool
  input_count : Int
  output_count : Int
  model_buffer : List Nat
  input_sizes_storage : List (List Int)
  input_data_storage : List (List Nat)
  forwardFn : List EValue → Option (List EValue)

/-- `tensor_to_evalue(tensor, module, input_index)` for a non-null tensor:
grows both scratch vectors to `input_index + 1` when the sizes vector is too
short, stores the (32-bit cast) shape and a copy of the tensor's bytes at
`input_index`, and returns an engine tensor view backed by those copies. -/
def tensor_to_evalue (tensor : ETTensor) (module : ETModule)
    (input_index : Nat) : EValue × ETModule :=
  let needResize := module.input_sizes_storage.length ≤ input_index
  let szs0 := if needResize then
      resizeTo (input_index + 1) ([] : List Int) module.input_sizes_storage
    else module.input_sizes_storage
  let dat0 := if needResize then
      resizeTo (input_index + 1) ([] : List Nat) module.input_data_storage
    else module.input_data_storage
  let sizesVec := (tensor.shape.take tensor.rank.toNat).map int32cast
  let szs := szs0.set input_index sizesVec
  let dat := dat0.set input_index tensor.data
  (EValue.tensor { scalar_type := to_scalar_type tensor.dtype
                   sizes := sizesVec
                   bytes := some tensor.data },
   { module with input_sizes_storage := szs, input_data_storage := dat })

/-- Resolution of one entry of the caller's `inputs` array: a handle is null
or an index into the store of live tensors. -/
def lookupTensor (store : List ETTensor) (handle : Option Nat) : Option ETTensor :=
  handle.bind store.get?

/-- The input-conversion loop of `et_module_forward`: for `i` from the start
index, a null input aborts with the module state accumulated so far (the C
code returns Invalid-Argument there); otherwise `tensor_to_evalue` stores the
copy and appends the engine value. -/
def convert_inputs (store : List ETTensor) (inputs : List (Option Nat)) :
    Nat → Nat → ETModule → List EValue → Except ETModule (ETModule × List EValue)
  | 0, _, m, acc => .ok (m, acc)
  | count + 1, i, m, acc =>
      match lookupTensor store (inputs.getD i none) with
      | none => .error m
      | some t =>
          let r := tensor_to_evalue t m i
          convert_inputs store inputs count (i + 1) r.2 (acc ++ [r.1])

/-- Result of one `et_module_forward` call: the returned status, the module
state after the call, the caller-visible tensor store after the call, and the
values written through the `outputs` / `output_count` out-parameters (`none`
means the pointer was never written; `some none` means null was written). -/
structure ForwardResult where
  status : ETStatus
  module : Option ETModule
  store : List ETTensor
  outputs_written : Option (Option (List ETTensor))
  output_count_written : Option Int

/-- Tail of `et_module_forward` after input conversion: run the engine's
forward, then populate the out-parameters.  `*output_count` is written before
the output array is `malloc`ed (`mallocOk` says whether that allocation
succeeds); a conversion failure frees everything built so far and zeroes both
out-parameters. -/
def run_engine (m : ETModule) (input_evalues : List EValue)
    (store : List ETTensor) (mallocOk : Bool) : ForwardResult :=
  match m.forwardFn input_evalues with
  | none =>
      { status := create_status .inferenceFailed
          (some "forward execution failed") (some "et_module_forward")
        module := some m, store := store
        outputs_written := none, output_count_written := none }
  | some output_evalues =>
      let cnt : Int := (output_evalues.length : Int)
      if mallocOk = false then
        { status := create_status .outOfMemory
            (some "failed to allocate outputs array") (some "et_module_forward")
          module := some m, store := store
          outputs_written := some none, output_count_written := some cnt }
      else
        match output_evalues.mapM evalue_to_tensor with
        | none =>
            { status := create_status .inferenceFailed
                (some "failed to convert output tensor") (some "et_module_forward")
              module := some m, store := store
              outputs_written := some none, output_count_written := some 0 }
        | some ts =>
            { status := create_ok_status
              module := some m, store := store
              outputs_written := some (some ts), output_count_written := some cnt }

/-- `et_module_forward(module, inputs, input_count, outputs, output_count)`.
`store` is the heap of live caller tensors; `inputs` is the caller's handle
array (null or its contents); `outputs_nonnull` / `output_count_nonnull` say
whether the out-parameter pointers are non-null; `mallocOk` is the allocation
oracle for the output array. -/
def et_module_forward (module : Option ETModule) (store : List ETTensor)
    (inputs : Option (List (Option Nat))) (input_count : Int)
    (outputs_nonnull : Bool) (output_count_nonnull : Bool)
    (mallocOk : Bool) : ForwardResult :=
  match module with
  | none =>
      { status := create_status .invalidState (some "module not loaded")
          (some "et_module_forward")
        module := none, store := store
        outputs_written := none, output_count_written := none }
  | some m =>
      if m.loaded = false then
        { status := create_status .invalidState (some "module not loaded")
            (some "et_module_forward")
          module := some m, store := store
          outputs_written := none, output_count_written := none }
      else if outputs_nonnull = false ∨ output_count_nonnull = false then
        { status := create_status .invalidArgument
            (some "invalid output pointers") (some "et_module_forward")
          module := some m, store := store
          outputs_written := none, output_count_written := none }
      else if 0 < input_count ∧ inputs = none then
        { status := create_status .invalidArgument (some "inputs is null")
            (some "et_module_forward")
          module := some m, store := store
          outputs_written := none, output_count_written := none }
      else
        let m1 := { m with input_sizes_storage := [], input_data_storage := [] }
        match convert_inputs store (inputs.getD []) input_count.toNat 0 m1 [] with
        | .error m2 =>
            { status := create_status .invalidArgument
                (some "input tensor is null") (some "et_module_forward")
              module := some m2, store := store
              outputs_written := none, output_count_written := none }
        | .ok (m2, input_evalues) =>
            run_engine m2 input_evalues store mallocOk

/-- Engine-side behaviour during a module load: the result of
`module->load()` and `module->load_forward()` (`0` is `Error::Ok`, any other
value the engine's numeric error code), the `method_meta("forward")` arities
if available, and the forward entry point for the loaded module. -/
structure EngineLoad where
  load_error : Nat
  forward_error : Nat
  meta : Option (Nat × Nat)
  forwardFn : List EValue → Option (List EValue)

/-- `et_module_load(data, data_size, out)`: argument validation, then the
engine's program load and forward-method resolution; on success the module is
marked loaded with arities from metadata (1/1 fallback). -/
def et_module_load (data : Option (List Nat)) (data_size : Nat)
    (out_nonnull : Bool) (engine : EngineLoad) : ETStatus × Option ETModule :=
  if out_nonnull = false then
    (create_status .invalidArgument (some "out pointer is null")
      (some "et_module_load"), none)
  else if data = none ∨ data_size = 0 then
    (create_status .invalidArgument (some "invalid model data")
      (some "et_module_load"), none)
  else if engine.load_error ≠ 0 then
    (create_status .modelLoadFailed
      (some ("failed to load ExecuTorch program (error code: "
        ++ toString engine.load_error ++ ")"))
      (some "et_module_load"), none)
  else if engine.forward_error ≠ 0 then
    (create_status .modelLoadFailed
      (some ("failed to load forward method (error code: "
        ++ toString engine.forward_error ++ ") - check backend compatibility"))
      (some "et_module_load"), none)
  else
    let counts : Int × Int :=
      match engine.meta with
      | some mi => ((mi.1 : Int), (mi.2 : Int))
      | none => (1, 1)
    (create_ok_status,
      some { loaded := true
             input_count := counts.1
             output_count := counts.2
             model_buffer := (data.getD []).take data_size
             input_sizes_storage := []
             input_data_storage := []
             forwardFn := engine.forwardFn })

/-- `et_module_load_file(path, out)`: same engine steps sourced from a
memory-mapped file; failure messages embed the path. -/
def et_module_load_file (path : Option String) (out_nonnull : Bool)
    (engine : EngineLoad) : ETStatus × Option ETModule :=
  if out_nonnull = false then
    (create_status .invalidArgument (some "out pointer is null")
      (some "et_module_load_file"), none)
  else
    match path with
    | none =>
        (create_status .invalidArgument (some "path is null")
          (some "et_module_load_file"), none)
    | some p =>
        if engine.load_error ≠ 0 then
          (create_status .modelLoadFailed
            (some ("failed to load program from: " ++ p ++ " (error code: "
              ++ toString engine.load_error ++ ")"))
            (some "et_module_load_file"), none)
        else if engine.forward_error ≠ 0 then
          (create_status .modelLoadFailed
            (some ("failed to load forward method for " ++ p ++ " (error code: "
              ++ toString engine.forward_error
              ++ ") - check backend compatibility"))
            (some "et_module_load_file"), none)
        else
          let counts : Int × Int :=
            match engine.meta with
            | some mi => ((mi.1 : Int), (mi.2 : Int))
            | none => (1, 1)
          (create_ok_status,
            some { loaded := true
                   input_count := counts.1
                   output_count := counts.2
                   model_buffer := []
                   input_sizes_storage := []
                   input_data_storage := []
                   forwardFn := engine.forwardFn })

/-- Backend identifiers (`ETBackend`, stable values 0..4). -/
inductive ETBackend
  | xnnpack
  | coreml
  | mps
  | vulkan
  | qnn
deriving DecidableEq

/-- Which backends a given build compiled in
(the `ET_BUILD_*` preprocessor flags). -/
structure BuildConfig where
  xnnpack : Bool
  coreml : Bool
  mps : Bool
  vulkan : Bool
  qnn : Bool
deriving DecidableEq

/-- The compiled-in backends in the fixed order of the `#if` chain in
`et_backend_list`. -/
def enabledBackends (cfg : BuildConfig) : List ETBackend :=
  (if cfg.xnnpack then [.xnnpack] else [])
    ++ (if cfg.coreml then [.coreml] else [])
    ++ (if cfg.mps then [.mps] else [])
    ++ (if cfg.vulkan then [.vulkan] else [])
    ++ (if cfg.qnn then [.qnn] else [])

/-- The chain of `if (count < max_count) out[count++] = …` statements of
`et_backend_list`, one per compiled-in backend. -/
def backend_fill (avail : List ETBackend) (max_count : Int) (count : Int)
    (out : List ETBackend) : Int × List ETBackend :=
  match avail with
  | [] => (count, out)
  | b :: rest =>
      if count < max_count then
        backend_fill rest max_count (count + 1) (out ++ [b])
      else
        (count, out)

/-- `et_backend_list(out, max_count)`: returns the number written and the
slots written into the caller's buffer. -/
def et_backend_list (cfg : BuildConfig) (out_nonnull : Bool)
    (max_count : Int) : Int × List ETBackend :=
  if out_nonnull = false ∨ max_count ≤ 0 then (0, [])
  else backend_fill (enabledBackends cfg) max_count 0 []

/-- Status well-formedness stated by the spec: `code == OK` exactly when both
strings are null, and an error status always carries a message. -/
def statusInv (s : ETStatus) : Prop :=
  (s.code = .ok ↔ s.message = none ∧ s.location = none)
    ∧ (s.code ≠ .ok → s.message ≠ none)

/-! Helper lemmas about sizes and products. -/

theorem dtype_size_pos (dt : ETDType) : 0 < dtype_size dt := by
  cases dt <;> simp [dtype_size]

theorem natProd_nil : natProd [] = 1 := rfl

theorem natProd_cons (d : Int) (l : List Int) :
    natProd (d :: l) = d.toNat * natProd l := by
  simp [natProd]

theorem natProd_pos {l : List Int} (h : ∀ d ∈ l, 0 < d) : 0 < natProd l := by
  induction l with
  | nil => simp [natProd]
  | cons d rest ih =>
      rw [natProd_cons]
      have hd : 0 < d := h d (List.mem_cons_self d rest)
      have hd' : 0 < d.toNat := by omega
      exact Nat.mul_pos hd' (ih fun x hx => h x (List.mem_cons_of_mem _ hx))

theorem foldl_sizeTMul_eq {l : List Int} (hpos : ∀ d ∈ l, 0 < d) :
    ∀ acc : Nat, acc * natProd l < 2 ^ 64 →
      l.foldl (fun a d => sizeTMul a d.toNat) acc = acc * natProd l := by
  induction l with
  | nil => intro acc h; simp [natProd]
  | cons d rest ih =>
      intro acc h
      have hrest : ∀ x ∈ rest, 0 < x := fun x hx => hpos x (List.mem_cons_of_mem _ hx)
      have hples : 0 < natProd rest := natProd_pos hrest
      have hstep : acc * d.toNat * natProd rest = acc * natProd (d :: rest) := by
        rw [natProd_cons]; ring
      have hlt : acc * d.toNat * natProd rest < 2 ^ 64 := by rw [hstep]; exact h
      have hsmall : acc * d.toNat < 2 ^ 64 :=
        lt_of_le_of_lt (Nat.le_mul_of_pos_right _ hples) hlt
      have hmul : sizeTMul acc d.toNat = acc * d.toNat := by
        show acc * d.toNat % 2 ^ 64 = acc * d.toNat
        exact Nat.mod_eq_of_lt hsmall
      calc (d :: rest).foldl (fun a x => sizeTMul a x.toNat) acc
          = rest.foldl (fun a x => sizeTMul a x.toNat) (sizeTMul acc d.toNat) := by
            rw [List.foldl_cons]
        _ = rest.foldl (fun a x => sizeTMul a x.toNat) (acc * d.toNat) := by rw [hmul]
        _ = acc * d.toNat * natProd rest := ih hrest _ hlt
        _ = acc * natProd (d :: rest) := hstep

/-- C1: for every shape of rank ≥ 1 with positive dimensions, every dtype of
the enumeration and every data buffer whose byte length equals
`product(shape) * elementSize(dtype)` (a `size_t`, hence `< 2 ^ 64`),
`et_tensor_create` returns OK and the accessors reproduce dtype, rank, shape,
byte length and the exact bytes. -/
theorem et_tensor_create_roundtrip (shape : List Int) (dtype : ETDType)
    (buf : List Nat)
    (hrank : shape ≠ [])
    (hpos : ∀ d ∈ shape, 0 < d)
    (hlen : buf.length = natProd shape * dtype_size dtype)
    (hfit : natProd shape * dtype_size dtype < 2 ^ 64) :
    ∃ t, et_tensor_create (some buf) buf.length (some shape)
          (shape.length : Int) dtype true = (create_ok_status, some t)
      ∧ et_tensor_dtype (some t) = dtype
      ∧ et_tensor_rank (some t) = (shape.length : Int)
      ∧ et_tensor_shape (some t) = some shape
      ∧ et_tensor_data_size (some t) = buf.length
      ∧ et_tensor_data (some t) = some buf := by
  have hppos : 0 < natProd shape := natProd_pos hpos
  have hlenpos : 0 < buf.length := by
    rw [hlen]; exact Nat.mul_pos hppos (dtype_size_pos dtype)
  have hlp : 0 < shape.length := List.length_pos.mpr hrank
  have hfold : shape.foldl (fun a d => sizeTMul a d.toNat) 1 = natProd shape := by
    have hb : (1 : Nat) * natProd shape < 2 ^ 64 := by
      have : natProd shape ≤ natProd shape * dtype_size dtype :=
        Nat.le_mul_of_pos_right _ (dtype_size_pos dtype)
      omega
    have := foldl_sizeTMul_eq hpos 1 hb
    simpa using this
  have hexp : sizeTMul (natProd shape) (dtype_size dtype) = buf.length := by
    show natProd shape * dtype_size dtype % 2 ^ 64 = buf.length
    rw [Nat.mod_eq_of_lt hfit, hlen]
  have h1 : ¬ ((shape.length : Int) ≤ 0) := by omega
  have h2 : (shape.length : Int).toNat = shape.length := by omega
  have h3 : (shape.any fun d => decide (d ≤ 0)) = false := by
    rw [List.any_eq_false]
    intro d hd
    simpa using not_le.mpr (hpos d hd)
  have hbe : buf ≠ [] := by
    intro hb; rw [hb] at hlenpos; simp at hlenpos
  refine ⟨{ dtype := dtype, rank := (shape.length : Int), shape := shape,
            data := buf }, ?_, rfl, rfl, ?_, rfl, ?_⟩
  · unfold et_tensor_create
    rw [if_neg (by simp), if_neg (by simp [h1])]
    simp only [Option.getD_some, h2, List.take_length]
    rw [if_neg (by simp [h3])]
    simp only [hfold, hexp]
    rw [if_neg (by omega)]
    rw [if_pos ⟨by simp, hlenpos⟩]
  · simp [et_tensor_shape, hrank]
  · simp [et_tensor_data, hbe]

/-- Witness for C1 at a concrete input: shape `[1, 1]`, dtype Bool, one data
byte. -/
theorem et_tensor_create_roundtrip_witness :
    ∃ t, et_tensor_create (some [7]) 1 (some [1, 1]) 2 .bool true
          = (create_ok_status, some t)
      ∧ et_tensor_dtype (some t) = .bool
      ∧ et_tensor_rank (some t) = 2
      ∧ et_tensor_shape (some t) = some [1, 1]
      ∧ et_tensor_data_size (some t) = 1
      ∧ et_tensor_data (some t) = some [7] :=
  et_tensor_create_roundtrip [1, 1] .bool [7] (by decide) (by decide)
    (by decide) (by decide)

/-- Counterexample to C2: `et_tensor_create` with a null data pointer and
`data_size = 4` for shape `[1]`, dtype Float32 returns OK and constructs a
Tensor whose byte buffer is empty (`memcpy` is skipped when `data` is null),
so `data.length ≠ product(shape) * elementSize(dtype)` for a Tensor that
exists. -/
theorem et_tensor_create_null_data_counterexample :
    (et_tensor_create none 4 (some [1]) 1 .float32 true).1 = create_ok_status
    ∧ (et_tensor_create none 4 (some [1]) 1 .float32 true).2 =
        some { dtype := .float32, rank := 1, shape := [1], data := [] }
    ∧ et_tensor_data_size ((et_tensor_create none 4 (some [1]) 1 .float32 true).2)
        ≠ natProd [1] * dtype_size .float32 := by
  refine ⟨rfl, rfl, ?_⟩
  decide

/-- Folding `size_t` multiplications equals multiplying exactly and reducing
mod `2 ^ 64` once at the end. -/
theorem foldl_sizeTMul_mod (l : List Nat) :
    ∀ acc : Nat, acc < 2 ^ 64 →
      l.foldl (fun a b => sizeTMul a b) acc = acc * l.prod % 2 ^ 64 := by
  induction l with
  | nil =>
      intro acc h
      simp only [List.foldl_nil, List.prod_nil, mul_one]
      exact (Nat.mod_eq_of_lt h).symm
  | cons b rest ih =>
      intro acc h
      rw [List.foldl_cons, ih (sizeTMul acc b) (Nat.mod_lt _ (by norm_num))]
      show acc * b % 2 ^ 64 * rest.prod % 2 ^ 64
          = acc * (b :: rest).prod % 2 ^ 64
      rw [Nat.mod_mul_mod, List.prod_cons, mul_assoc]

/-- On a value in `[0, 2 ^ 64)` the `size_t` conversion is plain `toNat`. -/
theorem sizeTOfInt_eq_toNat (d : Int) (h0 : 0 ≤ d) (h1 : d < 2 ^ 64) :
    sizeTOfInt d = d.toNat := by
  unfold sizeTOfInt
  rw [Int.emod_eq_of_lt h0 h1]

/-- For in-range non-negative sizes, the element count computed by
`evalue_to_tensor` is the mathematical product reduced mod `2 ^ 64`. -/
theorem engineNumel_eq (sizes : List Int)
    (h : ∀ d ∈ sizes, 0 ≤ d ∧ d < 2 ^ 64) :
    engineNumel sizes = natProd sizes % 2 ^ 64 := by
  unfold engineNumel
  have hmap : sizes.map sizeTOfInt = sizes.map Int.toNat := by
    apply List.map_congr_left
    intro d hd
    exact sizeTOfInt_eq_toNat d (h d hd).1 (h d hd).2
  calc sizes.foldl (fun acc d => sizeTMul acc (sizeTOfInt d)) 1
      = (sizes.map sizeTOfInt).foldl (fun a b => sizeTMul a b) 1 := by
        rw [List.foldl_map]
    _ = 1 * (sizes.map sizeTOfInt).prod % 2 ^ 64 :=
        foldl_sizeTMul_mod _ 1 (by norm_num)
    _ = natProd sizes % 2 ^ 64 := by
        rw [hmap, one_mul]
        rfl

/-- C2 (amended): the well-formedness invariant as the code actually enforces
it.  If the data pointer is non-null (and points at `data_size` readable
bytes) and the true `product(shape) * elementSize(dtype)` fits in a `size_t`,
then every Tensor constructed by `et_tensor_create` satisfies
`data.length = product(shape) * elementSize(dtype)`; every call whose
`data_size` differs from that product fails with Invalid-Argument writing no
Tensor; and every Tensor produced by conversion of an engine output value
(`evalue_to_tensor`, with the engine's in-range sizes and the same
fits-in-`size_t` proviso) satisfies the same equality. -/
theorem et_tensor_create_invariant_amended :
    (∀ (buf : List Nat) (data_size : Nat) (shape : List Int) (rank : Int)
        (dtype : ETDType) (t : ETTensor),
      data_size ≤ buf.length →
      natProd (shape.take rank.toNat) * dtype_size dtype < 2 ^ 64 →
      (et_tensor_create (some buf) data_size (some shape) rank dtype true).2
          = some t →
      t.data.length = natProd t.shape * dtype_size t.dtype)
    ∧ (∀ (data : Option (List Nat)) (data_size : Nat) (shape : List Int)
        (rank : Int) (dtype : ETDType),
      (∀ d ∈ shape.take rank.toNat, 0 < d) →
      natProd (shape.take rank.toNat) * dtype_size dtype < 2 ^ 64 →
      data_size ≠ natProd (shape.take rank.toNat) * dtype_size dtype →
      (et_tensor_create data data_size (some shape) rank dtype true).1.code
          = .invalidArgument
        ∧ (et_tensor_create data data_size (some shape) rank dtype true).2
          = none)
    ∧ (∀ (et : EngineTensor) (r : ETTensor),
      (∀ d ∈ et.sizes, 0 ≤ d ∧ d < 2 ^ 64) →
      natProd et.sizes * dtype_size (from_scalar_type et.scalar_type) < 2 ^ 64 →
      evalue_to_tensor (.tensor et) = some r →
      r.data.length = natProd r.shape * dtype_size r.dtype) := by
  refine ⟨?_, ?_, ?_⟩
  · intro buf data_size shape rank dtype t hbuf hfit h
    unfold et_tensor_create at h
    rw [if_neg (by simp)] at h
    rcases Decidable.em ((some shape : Option (List Int)) = none ∨ rank ≤ 0)
      with hr | hr
    · rw [if_pos hr] at h
      simp at h
    · rw [if_neg hr] at h
      simp only [Option.getD_some] at h
      rcases Decidable.em
          (((shape.take rank.toNat).any fun d => decide (d ≤ 0)) = true)
        with ha | ha
      · rw [if_pos ha] at h
        simp at h
      · rw [if_neg ha] at h
        have hposd : ∀ d ∈ shape.take rank.toNat, 0 < d := by
          intro d hd
          by_contra hle
          exact ha (List.any_eq_true.mpr ⟨d, hd, by simpa using not_lt.mp hle⟩)
        have hfold : (shape.take rank.toNat).foldl
            (fun acc d => sizeTMul acc d.toNat) 1
              = natProd (shape.take rank.toNat) := by
          have hb : (1 : Nat) * natProd (shape.take rank.toNat) < 2 ^ 64 := by
            have : natProd (shape.take rank.toNat)
                ≤ natProd (shape.take rank.toNat) * dtype_size dtype :=
              Nat.le_mul_of_pos_right _ (dtype_size_pos dtype)
            omega
          simpa using foldl_sizeTMul_eq hposd 1 hb
        have hexp : sizeTMul
            ((shape.take rank.toNat).foldl (fun acc d => sizeTMul acc d.toNat) 1)
            (dtype_size dtype)
              = natProd (shape.take rank.toNat) * dtype_size dtype := by
          rw [hfold]
          show natProd (shape.take rank.toNat) * dtype_size dtype % 2 ^ 64 = _
          exact Nat.mod_eq_of_lt hfit
        rcases Decidable.em (data_size
            = natProd (shape.take rank.toNat) * dtype_size dtype) with he | he
        · rw [if_neg (by rw [hexp]; simpa using he)] at h
          have hpp : 0 < natProd (shape.take rank.toNat) := natProd_pos hposd
          have hdpos : 0 < data_size := by
            rw [he]
            exact Nat.mul_pos hpp (dtype_size_pos dtype)
          rw [if_pos ⟨by simp, hdpos⟩] at h
          simp only [Option.getD_some, Option.some.injEq] at h
          subst h
          simp only [List.length_take]
          omega
        · rw [if_pos (by rw [hexp]; simpa using he)] at h
          simp at h
  · intro data data_size shape rank dtype hpos hfit hne
    unfold et_tensor_create
    rw [if_neg (by simp)]
    rcases Decidable.em ((some shape : Option (List Int)) = none ∨ rank ≤ 0)
      with hr | hr
    · rw [if_pos hr]
      exact ⟨rfl, rfl⟩
    · rw [if_neg hr]
      simp only [Option.getD_some]
      have ha : ((shape.take rank.toNat).any fun d => decide (d ≤ 0)) = false := by
        rw [List.any_eq_false]
        intro d hd
        simpa using not_le.mpr (hpos d hd)
      rw [if_neg (by simp [ha])]
      have hfold : (shape.take rank.toNat).foldl
          (fun acc d => sizeTMul acc d.toNat) 1
            = natProd (shape.take rank.toNat) := by
        have hb : (1 : Nat) * natProd (shape.take rank.toNat) < 2 ^ 64 := by
          have : natProd (shape.take rank.toNat)
              ≤ natProd (shape.take rank.toNat) * dtype_size dtype :=
            Nat.le_mul_of_pos_right _ (dtype_size_pos dtype)
          omega
        simpa using foldl_sizeTMul_eq hpos 1 hb
      have hexp : sizeTMul
          ((shape.take rank.toNat).foldl (fun acc d => sizeTMul acc d.toNat) 1)
          (dtype_size dtype)
            = natProd (shape.take rank.toNat) * dtype_size dtype := by
        rw [hfold]
        show natProd (shape.take rank.toNat) * dtype_size dtype % 2 ^ 64 = _
        exact Nat.mod_eq_of_lt hfit
      rw [if_pos (by rw [hexp]; exact hne)]
      exact ⟨rfl, rfl⟩
  · intro et r hsz hfit hconv
    unfold evalue_to_tensor at hconv
    simp only [Option.some.injEq] at hconv
    subst hconv
    have hsize : engineDataSize et
        = natProd et.sizes * dtype_size (from_scalar_type et.scalar_type) := by
      unfold engineDataSize
      rw [engineNumel_eq et.sizes hsz]
      show natProd et.sizes % 2 ^ 64
          * dtype_size (from_scalar_type et.scalar_type) % 2 ^ 64 = _
      rw [Nat.mod_mul_mod]
      exact Nat.mod_eq_of_lt hfit
    show (match et.bytes with
        | some src => copyBytes (engineDataSize et) src
        | none => List.replicate (engineDataSize et) 0).length
      = natProd et.sizes * dtype_size (from_scalar_type et.scalar_type)
    rw [← hsize]
    cases hb : et.bytes with
    | none => simp
    | some src =>
        simp only [copyBytes, List.length_append, List.length_take,
          List.length_replicate]
        omega

/-- A concrete engine output value for the amended-C2 witness: scalar type
Float, shape `[2]`, eight bytes. -/
def floatDemoEngineTensor : EngineTensor :=
  { scalar_type := .float, sizes := [2], bytes := some [1, 2, 3, 4, 5, 6, 7, 8] }

/-- The `ETTensor` that `evalue_to_tensor` produces from
`floatDemoEngineTensor`. -/
def floatDemoOutTensor : ETTensor :=
  { dtype := .float32, rank := 1, shape := [2], data := [1, 2, 3, 4, 5, 6, 7, 8] }

/-- Witness for the amended C2 at concrete inputs: a matching four-byte buffer
satisfies the invariant, a five-byte `data_size` for shape `[1]`, Float32 is
rejected, and a converted engine output value satisfies the invariant. -/
theorem et_tensor_create_invariant_amended_witness :
    ((4 : Nat) ≤ ([1, 2, 3, 4] : List Nat).length
      ∧ natProd (([1] : List Int).take (1 : Int).toNat) * dtype_size .float32
          < 2 ^ 64
      ∧ ∀ t, (et_tensor_create (some [1, 2, 3, 4]) 4 (some [1]) 1 .float32
            true).2 = some t →
          t.data.length = natProd t.shape * dtype_size t.dtype)
    ∧ ((et_tensor_create (some [1, 2, 3, 4]) 5 (some [1]) 1 .float32 true).1.code
          = .invalidArgument
      ∧ (et_tensor_create (some [1, 2, 3, 4]) 5 (some [1]) 1 .float32 true).2
          = none)
    ∧ floatDemoOutTensor.data.length
        = natProd floatDemoOutTensor.shape
          * dtype_size floatDemoOutTensor.dtype := by
  refine ⟨⟨by decide, by decide, ?_⟩, ?_, ?_⟩
  · intro t ht
    exact et_tensor_create_invariant_amended.1 [1, 2, 3, 4] 4 [1] 1 .float32 t
      (by decide) (by decide) ht
  · exact et_tensor_create_invariant_amended.2.1 (some [1, 2, 3, 4]) 5 [1] 1
      .float32 (by decide) (by decide) (by decide)
  · exact et_tensor_create_invariant_amended.2.2 floatDemoEngineTensor
      floatDemoOutTensor (by decide) (by decide) (by decide)

/-- C7: the engine-to-shim dtype table is exactly the fixed eight-entry map,
every scalar type outside it falls back to Float32, and `evalue_to_tensor`
installs that mapped dtype and copies the engine bytes verbatim (no widening
or narrowing). -/
theorem output_dtype_mapping :
    (from_scalar_type .float = .float32 ∧ from_scalar_type .double = .float64
      ∧ from_scalar_type .long = .int64 ∧ from_scalar_type .int = .int32
      ∧ from_scalar_type .short = .int16 ∧ from_scalar_type .char = .int8
      ∧ from_scalar_type .byte = .uint8 ∧ from_scalar_type .bool = .bool)
    ∧ (∀ tag, from_scalar_type (.unknown tag) = .float32)
    ∧ (∀ (et : EngineTensor) (t : ETTensor),
        evalue_to_tensor (.tensor et) = some t →
        t.dtype = from_scalar_type et.scalar_type
          ∧ ∀ src, et.bytes = some src → engineDataSize et ≤ src.length →
              t.data = src.take (engineDataSize et)) := by
  refine ⟨⟨rfl, rfl, rfl, rfl, rfl, rfl, rfl, rfl⟩, fun tag => rfl, ?_⟩
  intro et t h
  unfold evalue_to_tensor at h
  simp only [Option.some.injEq] at h
  subst h
  refine ⟨rfl, ?_⟩
  intro src hsrc hle
  simp only [hsrc]
  unfold copyBytes
  have hz : engineDataSize et - src.length = 0 := by omega
  simp [hz]

/-- A concrete engine output tensor used as the C7 witness input: scalar type
Long, shape `[1]`, eight bytes. -/
def longDemoEngineTensor : EngineTensor :=
  { scalar_type := .long, sizes := [1], bytes := some [1, 2, 3, 4, 5, 6, 7, 8] }

/-- The `ETTensor` that `evalue_to_tensor` produces from
`longDemoEngineTensor`. -/
def longDemoOutTensor : ETTensor :=
  { dtype := .int64, rank := 1, shape := [1], data := [1, 2, 3, 4, 5, 6, 7, 8] }

/-- Witness for C7 at the concrete engine tensor `longDemoEngineTensor`. -/
theorem output_dtype_mapping_witness :
    longDemoOutTensor.dtype = from_scalar_type .long
    ∧ longDemoOutTensor.data
        = [1, 2, 3, 4, 5, 6, 7, 8].take (engineDataSize longDemoEngineTensor) := by
  have h := output_dtype_mapping.2.2 longDemoEngineTensor longDemoOutTensor
    (by decide)
  exact ⟨h.1, h.2 [1, 2, 3, 4, 5, 6, 7, 8] rfl (by decide)⟩

/-- Unfolding of the `if (count < max_count) out[count++] = …` chain: with
`0 ≤ count ≤ max_count` already placed, the chain writes the next
`(max_count - count)` available identifiers and returns the final count. -/
theorem backend_fill_spec (avail : List ETBackend) :
    ∀ (max_count count : Int) (out : List ETBackend),
      0 ≤ count → count ≤ max_count →
      backend_fill avail max_count count out
        = (min max_count (count + (avail.length : Int)),
           out ++ avail.take (max_count - count).toNat) := by
  induction avail with
  | nil =>
      intro mc c out h0 hle
      simp [backend_fill, Prod.ext_iff]
      omega
  | cons b rest ih =>
      intro mc c out h0 hle
      unfold backend_fill
      by_cases hc : c < mc
      · rw [if_pos hc, ih mc (c + 1) (out ++ [b]) (by omega) (by omega)]
        refine Prod.ext ?_ ?_
        · simp only [List.length_cons]
          push_cast
          omega
        · simp only
          have h1 : (mc - c).toNat = (mc - (c + 1)).toNat + 1 := by omega
          rw [h1, List.take_succ_cons, List.append_assoc, List.singleton_append]
      · rw [if_neg hc]
        have hcm : c = mc := le_antisymm hle (not_lt.mp hc)
        subst hcm
        simp [Prod.ext_iff]
        omega

/-- Core behaviour of `et_backend_list` with a valid buffer and positive
`max_count`. -/
theorem et_backend_list_pos (cfg : BuildConfig) (mc : Int) (hmc : 0 < mc) :
    et_backend_list cfg true mc
      = (min mc ((enabledBackends cfg).length : Int),
         (enabledBackends cfg).take mc.toNat) := by
  unfold et_backend_list
  rw [if_neg (by push_neg; exact ⟨by simp, by omega⟩)]
  rw [backend_fill_spec (enabledBackends cfg) mc 0 [] le_rfl (by omega)]
  simp

/-- C8: `et_backend_list` with a null buffer or `max_count ≤ 0` returns 0 and
writes nothing; otherwise it writes the first `max_count` compiled-in
backends (in the fixed order of `enabledBackends`) and returns
`min max_count (number compiled in)`; with `max_count = 1` and three
compiled-in backends it returns 1 and fills exactly one slot. -/
theorem et_backend_list_bounds :
    (∀ (cfg : BuildConfig) (onn : Bool) (mc : Int),
      onn = false ∨ mc ≤ 0 → et_backend_list cfg onn mc = (0, []))
    ∧ (∀ (cfg : BuildConfig) (mc : Int), 0 < mc →
      et_backend_list cfg true mc
        = (min mc ((enabledBackends cfg).length : Int),
           (enabledBackends cfg).take mc.toNat))
    ∧ (∀ cfg : BuildConfig, (enabledBackends cfg).length = 3 →
      (et_backend_list cfg true 1).1 = 1
        ∧ (et_backend_list cfg true 1).2.length = 1) := by
  refine ⟨?_, ?_, ?_⟩
  · intro cfg onn mc h
    unfold et_backend_list
    rw [if_pos h]
  · intro cfg mc hmc
    exact et_backend_list_pos cfg mc hmc
  · intro cfg hlen
    rw [et_backend_list_pos cfg 1 (by omega)]
    constructor
    · simp only [hlen]
      decide
    · simp [hlen]

/-- A build with exactly XNNPACK, CoreML and MPS compiled in (the macOS arm64
configuration), used as the C8 witness input. -/
def threeBackendBuild : BuildConfig :=
  { xnnpack := true, coreml := true, mps := true, vulkan := false, qnn := false }

/-- Witness for C8: the three-backend build with `max_count = 0` and
`max_count = 1`. -/
theorem et_backend_list_bounds_witness :
    et_backend_list threeBackendBuild true 0 = (0, [])
    ∧ et_backend_list threeBackendBuild true 1
        = (min 1 ((enabledBackends threeBackendBuild).length : Int),
           (enabledBackends threeBackendBuild).take (1 : Int).toNat)
    ∧ (et_backend_list threeBackendBuild true 1).1 = 1
    ∧ (et_backend_list threeBackendBuild true 1).2.length = 1 := by
  refine ⟨et_backend_list_bounds.1 threeBackendBuild true 0 (Or.inr (by omega)),
    et_backend_list_bounds.2.1 threeBackendBuild 1 (by omega), ?_, ?_⟩
  · exact (et_backend_list_bounds.2.2 threeBackendBuild (by decide)).1
  · exact (et_backend_list_bounds.2.2 threeBackendBuild (by decide)).2

/-- Every error path builds its status from a literal non-OK code, a non-null
message and the function name, so it satisfies the invariant. -/
theorem statusInv_error (c : ETErrorCode) (msg loc : String) (h : c ≠ .ok) :
    statusInv (create_status c (some msg) (some loc)) := by
  constructor
  · constructor
    · intro hc
      exact absurd hc h
    · rintro ⟨hm, -⟩
      simp [create_status] at hm
  · intro _
    simp [create_status]

/-- The OK status carries no strings. -/
theorem statusInv_ok : statusInv create_ok_status := by
  constructor
  · simp [create_ok_status, create_status]
  · intro h
    exact absurd rfl h

/-- Every status produced by the engine-running tail of `et_module_forward`
satisfies the invariant. -/
theorem statusInv_run_engine (m : ETModule) (evs : List EValue)
    (store : List ETTensor) (mok : Bool) :
    statusInv (run_engine m evs store mok).status := by
  unfold run_engine
  split
  · exact statusInv_error _ _ _ (by decide)
  · split
    · exact statusInv_error _ _ _ (by decide)
    · split
      · exact statusInv_error _ _ _ (by decide)
      · exact statusInv_ok

/-- C6: every `ETStatus` returned by a modelled boundary function satisfies
`code == OK ⇔ (message == null ∧ location == null)`, and every error status
carries a non-null message. -/
theorem boundary_status_invariant :
    (∀ data data_size shape rank dtype onn,
      statusInv (et_tensor_create data data_size shape rank dtype onn).1)
    ∧ (∀ data data_size onn engine,
      statusInv (et_module_load data data_size onn engine).1)
    ∧ (∀ path onn engine,
      statusInv (et_module_load_file path onn engine).1)
    ∧ (∀ module store inputs input_count onn ocn mok,
      statusInv (et_module_forward module store inputs input_count onn ocn
        mok).status) := by
  refine ⟨?_, ?_, ?_, ?_⟩
  · intro data data_size shape rank dtype onn
    unfold et_tensor_create
    simp only []
    repeat' split
    all_goals first
      | exact statusInv_ok
      | exact statusInv_error _ _ _ (by decide)
  · intro data data_size onn engine
    unfold et_module_load
    simp only []
    repeat' split
    all_goals first
      | exact statusInv_ok
      | exact statusInv_error _ _ _ (by decide)
  · intro path onn engine
    unfold et_module_load_file
    simp only []
    repeat' split
    all_goals first
      | exact statusInv_ok
      | exact statusInv_error _ _ _ (by decide)
  · intro module store inputs input_count onn ocn mok
    unfold et_module_forward
    simp only []
    repeat' split
    all_goals first
      | exact statusInv_ok
      | exact statusInv_error _ _ _ (by decide)
      | exact statusInv_run_engine _ _ _ _

/-- Witness for C6 at concrete calls of each boundary function. -/
theorem boundary_status_invariant_witness :
    statusInv (et_tensor_create none 0 none 0 .float32 true).1
    ∧ statusInv (et_module_load none 0 true
        { load_error := 0, forward_error := 0, meta := none,
          forwardFn := fun _ => none }).1
    ∧ statusInv (et_module_load_file none true
        { load_error := 0, forward_error := 0, meta := none,
          forwardFn := fun _ => none }).1
    ∧ statusInv (et_module_forward none [] none 0 true true true).status :=
  ⟨boundary_status_invariant.1 none 0 none 0 .float32 true,
   boundary_status_invariant.2.1 none 0 true _,
   boundary_status_invariant.2.2.1 none true _,
   boundary_status_invariant.2.2.2 none [] none 0 true true true⟩

/-- C5: `et_module_load` with null data or zero size fails with
Invalid-Argument, writes nothing to `*out`, and its result does not depend on
the engine at all (no engine call is attempted); when the engine's program
load or forward-method resolution fails, no module is produced and the status
is Model-Load-Failed with a message embedding the engine's numeric error
code. -/
theorem et_module_load_errors :
    (∀ (data : Option (List Nat)) (data_size : Nat) (onn : Bool)
        (engine : EngineLoad),
      data = none ∨ data_size = 0 →
      (et_module_load data data_size onn engine).1.code = .invalidArgument
        ∧ (et_module_load data data_size onn engine).2 = none
        ∧ ∀ engine', et_module_load data data_size onn engine
            = et_module_load data data_size onn engine')
    ∧ (∀ (data : Option (List Nat)) (data_size : Nat) (engine : EngineLoad),
      ¬(data = none ∨ data_size = 0) →
      engine.load_error ≠ 0 →
      (et_module_load data data_size true engine).1.code = .modelLoadFailed
        ∧ (et_module_load data data_size true engine).2 = none
        ∧ ∃ pre post, (et_module_load data data_size true engine).1.message
            = some (pre ++ toString engine.load_error ++ post))
    ∧ (∀ (data : Option (List Nat)) (data_size : Nat) (engine : EngineLoad),
      ¬(data = none ∨ data_size = 0) →
      engine.load_error = 0 →
      engine.forward_error ≠ 0 →
      (et_module_load data data_size true engine).1.code = .modelLoadFailed
        ∧ (et_module_load data data_size true engine).2 = none
        ∧ ∃ pre post, (et_module_load data data_size true engine).1.message
            = some (pre ++ toString engine.forward_error ++ post)) := by
  refine ⟨?_, ?_, ?_⟩
  · intro data data_size onn engine h
    cases onn with
    | false =>
        refine ⟨rfl, rfl, fun engine' => ?_⟩
        unfold et_module_load
        rw [if_pos rfl, if_pos rfl]
    | true =>
        have heq : ∀ engine' : EngineLoad,
            et_module_load data data_size true engine'
              = (create_status .invalidArgument (some "invalid model data")
                  (some "et_module_load"), none) := by
          intro engine'
          unfold et_module_load
          rw [if_neg (by simp), if_pos h]
        refine ⟨?_, ?_, fun engine' => ?_⟩
        · rw [heq engine]
          rfl
        · rw [heq engine]
        · rw [heq engine, heq engine']
  · intro data data_size engine hdata hl
    unfold et_module_load
    rw [if_neg (by simp), if_neg hdata, if_pos hl]
    exact ⟨rfl, rfl,
      "failed to load ExecuTorch program (error code: ", ")", rfl⟩
  · intro data data_size engine hdata hl hf
    unfold et_module_load
    rw [if_neg (by simp), if_neg hdata, if_neg (by simpa using hl), if_pos hf]
    exact ⟨rfl, rfl,
      "failed to load forward method (error code: ",
      ") - check backend compatibility", rfl⟩

/-- Witness for C5: null data with a successful engine, and one-byte data with
engine error codes 13 and 7 respectively. -/
theorem et_module_load_errors_witness :
    ((et_module_load none 5 true
        { load_error := 0, forward_error := 0, meta := none,
          forwardFn := fun _ => none }).1.code = .invalidArgument
      ∧ (et_module_load none 5 true
          { load_error := 0, forward_error := 0, meta := none,
            forwardFn := fun _ => none }).2 = none)
    ∧ ((et_module_load (some [1]) 1 true
        { load_error := 13, forward_error := 0, meta := none,
          forwardFn := fun _ => none }).1.code = .modelLoadFailed
      ∧ ∃ pre post, (et_module_load (some [1]) 1 true
          { load_error := 13, forward_error := 0, meta := none,
            forwardFn := fun _ => none }).1.message
          = some (pre ++ toString (13 : Nat) ++ post))
    ∧ ((et_module_load (some [1]) 1 true
        { load_error := 0, forward_error := 7, meta := none,
          forwardFn := fun _ => none }).1.code = .modelLoadFailed
      ∧ ∃ pre post, (et_module_load (some [1]) 1 true
          { load_error := 0, forward_error := 7, meta := none,
            forwardFn := fun _ => none }).1.message
          = some (pre ++ toString (7 : Nat) ++ post)) := by
  refine ⟨?_, ?_, ?_⟩
  · have h := et_module_load_errors.1 none 5 true
      { load_error := 0, forward_error := 0, meta := none,
        forwardFn := fun _ => none } (Or.inl rfl)
    exact ⟨h.1, h.2.1⟩
  · have h := et_module_load_errors.2.1 (some [1]) 1
      { load_error := 13, forward_error := 0, meta := none,
        forwardFn := fun _ => none } (by simp) (by decide)
    exact ⟨h.1, h.2.2⟩
  · have h := et_module_load_errors.2.2 (some [1]) 1
      { load_error := 0, forward_error := 7, meta := none,
        forwardFn := fun _ => none } (by simp) rfl (by decide)
    exact ⟨h.1, h.2.2⟩

/-- The engine-running tail never touches the caller's tensor store. -/
theorem run_engine_store (m : ETModule) (evs : List EValue)
    (store : List ETTensor) (mok : Bool) :
    (run_engine m evs store mok).store = store := by
  unfold run_engine
  split
  · rfl
  · split
    · rfl
    · split
      · rfl
      · rfl

/-- The engine-running tail only ever returns Inference-Failed, Out-of-Memory
or OK. -/
theorem run_engine_code (m : ETModule) (evs : List EValue)
    (store : List ETTensor) (mok : Bool) :
    (run_engine m evs store mok).status.code = .inferenceFailed
    ∨ (run_engine m evs store mok).status.code = .outOfMemory
    ∨ (run_engine m evs store mok).status.code = .ok := by
  unfold run_engine
  split
  · left; rfl
  · split
    · right; left; rfl
    · split
      · left; rfl
      · right; right; rfl

/-- Out-parameter discipline of the engine-running tail: engine failure writes
nothing; output-array allocation failure writes null to `*outputs` but leaves
the already-written output count in `*output_count`; conversion failure
zeroes both. -/
theorem run_engine_failure_outputs (m : ETModule) (evs : List EValue)
    (store : List ETTensor) (mok : Bool) :
    (run_engine m evs store mok).status.code ≠ .ok →
    ((run_engine m evs store mok).outputs_written = none
        ∧ (run_engine m evs store mok).output_count_written = none)
    ∨ ((run_engine m evs store mok).status.code = .outOfMemory
        ∧ (run_engine m evs store mok).outputs_written = some none
        ∧ ∃ n, (run_engine m evs store mok).output_count_written = some n)
    ∨ ((run_engine m evs store mok).status.code = .inferenceFailed
        ∧ (run_engine m evs store mok).outputs_written = some none
        ∧ (run_engine m evs store mok).output_count_written = some 0) := by
  unfold run_engine
  split
  · intro _
    left
    exact ⟨rfl, rfl⟩
  · split
    · intro _
      right; left
      exact ⟨rfl, rfl, _, rfl⟩
    · split
      · intro _
        right; right
        exact ⟨rfl, rfl, rfl⟩
      · intro h
        exact absurd rfl h

/-- Setting then reading the same in-range index of a list. -/
theorem getD_set_self {α : Type} :
    ∀ (l : List α) (i : Nat) (a d : α), i < l.length →
      (l.set i a).getD i d = a
  | [], i, a, d, h => absurd h (by simp)
  | x :: xs, 0, a, d, h => rfl
  | x :: xs, i + 1, a, d, h => by
      simp only [List.set_cons_succ, List.getD_cons_succ]
      exact getD_set_self xs i a d (by simpa using h)

/-- `resizeTo` produces a list of exactly the requested length. -/
theorem length_resizeTo {α : Type} (n : Nat) (pad : α) (l : List α) :
    (resizeTo n pad l).length = n := by
  simp [resizeTo]
  omega

/-- If any of the `count` inputs starting at index `i` is null (or dangling),
the conversion loop aborts with an error. -/
theorem convert_inputs_error (store : List ETTensor)
    (inputs : List (Option Nat)) :
    ∀ (count i : Nat) (m : ETModule) (acc : List EValue) (j : Nat),
      j < count → lookupTensor store (inputs.getD (i + j) none) = none →
      ∃ m', convert_inputs store inputs count i m acc = .error m' := by
  intro count
  induction count with
  | zero =>
      intro i m acc j hj hnull
      exact absurd hj (by omega)
  | succ n ih =>
      intro i m acc j hj hnull
      cases hl : lookupTensor store (inputs.getD i none) with
      | none => exact ⟨m, by simp only [convert_inputs]; rw [hl]⟩
      | some t =>
          cases j with
          | zero =>
              rw [Nat.add_zero] at hnull
              rw [hnull] at hl
              cases hl
          | succ k =>
              obtain ⟨m', hm'⟩ := ih (i + 1) (tensor_to_evalue t m i).2
                (acc ++ [(tensor_to_evalue t m i).1]) k (by omega)
                (by rw [show i + 1 + k = i + (k + 1) by omega]; exact hnull)
              exact ⟨m', by simp only [convert_inputs, hl]; exact hm'⟩

/-- Every run of `et_module_forward` either returns before writing any
out-parameter or hands over to the engine-running tail. -/
theorem et_module_forward_shape (module : Option ETModule)
    (store : List ETTensor) (inputs : Option (List (Option Nat)))
    (input_count : Int) (onn ocn mok : Bool) :
    ((et_module_forward module store inputs input_count onn ocn mok).outputs_written
          = none
      ∧ (et_module_forward module store inputs input_count onn ocn
          mok).output_count_written = none)
    ∨ ∃ m2 evs, et_module_forward module store inputs input_count onn ocn mok
        = run_engine m2 evs store mok := by
  cases module with
  | none => exact Or.inl ⟨rfl, rfl⟩
  | some m =>
      unfold et_module_forward
      simp only []
      repeat' split
      all_goals first
        | exact Or.inl ⟨rfl, rfl⟩
        | exact Or.inr ⟨_, _, rfl⟩

/-- C4: `et_module_forward` returns Invalid-State for a null or not-loaded
module without touching the module (scratch storage included) and without
writing the out-parameters; it returns Invalid-Argument when an out-parameter
pointer is null, when `input_count > 0` with a null `inputs` array, and when
any individual element of the `inputs` array is null. -/
theorem forward_precondition_checks :
    (∀ store inputs input_count onn ocn mok,
      (et_module_forward none store inputs input_count onn ocn mok).status.code
          = .invalidState
        ∧ (et_module_forward none store inputs input_count onn ocn mok).module
          = none
        ∧ (et_module_forward none store inputs input_count onn ocn
            mok).outputs_written = none
        ∧ (et_module_forward none store inputs input_count onn ocn
            mok).output_count_written = none)
    ∧ (∀ (m : ETModule) store inputs input_count onn ocn mok,
      m.loaded = false →
      (et_module_forward (some m) store inputs input_count onn ocn
          mok).status.code = .invalidState
        ∧ (et_module_forward (some m) store inputs input_count onn ocn
            mok).module = some m
        ∧ (et_module_forward (some m) store inputs input_count onn ocn
            mok).outputs_written = none
        ∧ (et_module_forward (some m) store inputs input_count onn ocn
            mok).output_count_written = none)
    ∧ (∀ (m : ETModule) store inputs input_count onn ocn mok,
      m.loaded = true → onn = false ∨ ocn = false →
      (et_module_forward (some m) store inputs input_count onn ocn
          mok).status.code = .invalidArgument
        ∧ (et_module_forward (some m) store inputs input_count onn ocn
            mok).outputs_written = none
        ∧ (et_module_forward (some m) store inputs input_count onn ocn
            mok).output_count_written = none)
    ∧ (∀ (m : ETModule) store input_count mok,
      m.loaded = true → 0 < input_count →
      (et_module_forward (some m) store none input_count true true
          mok).status.code = .invalidArgument
        ∧ (et_module_forward (some m) store none input_count true true
            mok).outputs_written = none
        ∧ (et_module_forward (some m) store none input_count true true
            mok).output_count_written = none)
    ∧ (∀ (m : ETModule) store (l : List (Option Nat)) input_count mok
        (j : Nat),
      m.loaded = true → j < input_count.toNat → l.getD j none = none →
      (et_module_forward (some m) store (some l) input_count true true
          mok).status.code = .invalidArgument
        ∧ (et_module_forward (some m) store (some l) input_count true true
            mok).outputs_written = none
        ∧ (et_module_forward (some m) store (some l) input_count true true
            mok).output_count_written = none) := by
  refine ⟨?_, ?_, ?_, ?_, ?_⟩
  · intro store inputs input_count onn ocn mok
    exact ⟨rfl, rfl, rfl, rfl⟩
  · intro m store inputs input_count onn ocn mok h
    refine ⟨?_, ?_, ?_, ?_⟩ <;> simp [et_module_forward, h, create_status]
  · intro m store inputs input_count onn ocn mok h ho
    rcases ho with ho | ho <;> subst ho <;>
      refine ⟨?_, ?_, ?_⟩ <;> simp [et_module_forward, h, create_status]
  · intro m store input_count mok h hic
    refine ⟨?_, ?_, ?_⟩ <;>
      simp [et_module_forward, h, hic, create_status]
  · intro m store l input_count mok j h hj hnull
    obtain ⟨m', hm'⟩ := convert_inputs_error store l input_count.toNat 0
      { m with input_sizes_storage := [], input_data_storage := [] } [] j hj
      (by simpa [lookupTensor] using congrArg (fun o => Option.bind o store.get?) hnull)
    rw [h] at hm'
    refine ⟨?_, ?_, ?_⟩ <;> simp [et_module_forward, h, hm', create_status]

/-- A module whose load never succeeded. -/
def unloadedDemoModule : ETModule :=
  { loaded := false, input_count := 0, output_count := 0, model_buffer := [],
    input_sizes_storage := [], input_data_storage := [],
    forwardFn := fun _ => none }

/-- A loaded module whose engine forward returns no outputs. -/
def loadedDemoModule : ETModule :=
  { loaded := true, input_count := 1, output_count := 1, model_buffer := [],
    input_sizes_storage := [], input_data_storage := [],
    forwardFn := fun _ => some [] }

/-- Witness for C4 at concrete calls: a null module, an unloaded module, a
null out-parameter, a null inputs array with `input_count = 1`, and a null
first input element. -/
theorem forward_precondition_checks_witness :
    ((et_module_forward none [] none 0 true true true).status.code
        = .invalidState
      ∧ (et_module_forward none [] none 0 true true true).module = none)
    ∧ ((et_module_forward (some unloadedDemoModule) [] none 0 true true
          true).status.code = .invalidState
      ∧ (et_module_forward (some unloadedDemoModule) [] none 0 true true
          true).module = some unloadedDemoModule)
    ∧ (et_module_forward (some loadedDemoModule) [] none 0 false true
        true).status.code = .invalidArgument
    ∧ (et_module_forward (some loadedDemoModule) [] none 1 true true
        true).status.code = .invalidArgument
    ∧ (et_module_forward (some loadedDemoModule) [] (some [none]) 1 true true
        true).status.code = .invalidArgument := by
  have h1 := forward_precondition_checks.1 [] none 0 true true true
  have h2 := forward_precondition_checks.2.1 unloadedDemoModule [] none 0 true
    true true rfl
  have h3 := forward_precondition_checks.2.2.1 loadedDemoModule [] none 0
    false true true rfl (Or.inl rfl)
  have h4 := forward_precondition_checks.2.2.2.1 loadedDemoModule [] 1 true
    rfl (by omega)
  have h5 := forward_precondition_checks.2.2.2.2 loadedDemoModule [] [none] 1
    true 0 rfl (by decide) rfl
  exact ⟨⟨h1.1, h1.2.1⟩, ⟨h2.1, h2.2.1⟩, h3.1, h4.1, h5.1⟩

/-- C10: a loaded module accepts `input_count = 0` with a null `inputs`
pointer — the call is not rejected (no Invalid-Argument / Invalid-State) and
proceeds to hand the engine an empty input list over cleared scratch
storage. -/
theorem forward_empty_inputs_accepted (m : ETModule) (store : List ETTensor)
    (mok : Bool) (h : m.loaded = true) :
    et_module_forward (some m) store none 0 true true mok
        = run_engine
            { m with input_sizes_storage := [], input_data_storage := [] }
            [] store mok
    ∧ (et_module_forward (some m) store none 0 true true mok).status.code
        ≠ .invalidArgument
    ∧ (et_module_forward (some m) store none 0 true true mok).status.code
        ≠ .invalidState := by
  have heq : et_module_forward (some m) store none 0 true true mok
      = run_engine { m with input_sizes_storage := [], input_data_storage := [] }
          [] store mok := by
    simp [et_module_forward, h, convert_inputs]
  refine ⟨heq, ?_, ?_⟩ <;> rw [heq] <;>
    rcases run_engine_code
      { m with input_sizes_storage := [], input_data_storage := [] } [] store
      mok with hc | hc | hc <;>
    rw [hc] <;> simp

/-- Witness for C10: the loaded demo module (engine returns an empty output
list), which makes the whole call succeed. -/
theorem forward_empty_inputs_accepted_witness :
    (et_module_forward (some loadedDemoModule) [] none 0 true true true
        = run_engine
            { loadedDemoModule with
                input_sizes_storage := [], input_data_storage := [] }
            [] [] true)
    ∧ (et_module_forward (some loadedDemoModule) [] none 0 true true
        true).status.code ≠ .invalidArgument
    ∧ (et_module_forward (some loadedDemoModule) [] none 0 true true
        true).status.code ≠ .invalidState :=
  forward_empty_inputs_accepted loadedDemoModule [] true rfl

/-- C9: `et_module_forward` never modifies the caller's tensors — the store of
live tensors is returned exactly as it was, on every path (success and all
failures); and the conversion step hands the engine a tensor view whose
backing bytes are a copy of the input tensor's bytes stored in the
module-owned scratch slot, not the caller's buffer. -/
theorem forward_frame_inputs :
    (∀ module store inputs input_count onn ocn mok,
      (et_module_forward module store inputs input_count onn ocn mok).store
        = store)
    ∧ (∀ (t : ETTensor) (m : ETModule) (i : Nat),
      m.input_data_storage.length = m.input_sizes_storage.length →
      (tensor_to_evalue t m i).1
          = EValue.tensor
              { scalar_type := to_scalar_type t.dtype,
                sizes := (t.shape.take t.rank.toNat).map int32cast,
                bytes := some t.data }
        ∧ (tensor_to_evalue t m i).2.input_data_storage.getD i [] = t.data) := by
  constructor
  · intro module store inputs input_count onn ocn mok
    cases module with
    | none => rfl
    | some m =>
        unfold et_module_forward
        simp only []
        repeat' split
        all_goals first
          | rfl
          | exact run_engine_store _ _ _ _
  · intro t m i hlen
    refine ⟨rfl, ?_⟩
    show ((if m.input_sizes_storage.length ≤ i then
        resizeTo (i + 1) ([] : List Nat) m.input_data_storage
      else m.input_data_storage).set i t.data).getD i [] = t.data
    by_cases hn : m.input_sizes_storage.length ≤ i
    · rw [if_pos hn]
      exact getD_set_self _ i _ [] (by rw [length_resizeTo]; omega)
    · rw [if_neg hn]
      exact getD_set_self _ i _ [] (by omega)

/-- Witness for C9: a concrete forward call leaves the store unchanged, and a
concrete conversion stores the copied bytes. -/
theorem forward_frame_inputs_witness :
    (et_module_forward (some loadedDemoModule)
        [{ dtype := .float32, rank := 1, shape := [1], data := [9, 9, 9, 9] }]
        none 0 true true true).store
      = [{ dtype := .float32, rank := 1, shape := [1], data := [9, 9, 9, 9] }]
    ∧ (tensor_to_evalue
          { dtype := .float32, rank := 1, shape := [1], data := [9, 9, 9, 9] }
          loadedDemoModule 0).2.input_data_storage.getD 0 [] = [9, 9, 9, 9] := by
  constructor
  · exact forward_frame_inputs.1 (some loadedDemoModule)
      [{ dtype := .float32, rank := 1, shape := [1], data := [9, 9, 9, 9] }]
      none 0 true true true
  · exact (forward_frame_inputs.2
      { dtype := .float32, rank := 1, shape := [1], data := [9, 9, 9, 9] }
      loadedDemoModule 0 rfl).2

/-- A loaded module whose engine forward returns one tensor output, used to
exercise the output-array allocation-failure path. -/
def oneOutputDemoModule : ETModule :=
  { loaded := true, input_count := 0, output_count := 1, model_buffer := [],
    input_sizes_storage := [], input_data_storage := [],
    forwardFn := fun _ =>
      some [EValue.tensor ⟨.float, [1], some [0, 0, 0, 0]⟩] }

/-- Counterexample to C3: when the engine returns one output and the
`malloc` of the output array fails, `et_module_forward` returns Out-of-Memory
— a non-OK status — yet `*output_count` has already been written the engine's
output count 1 (it is not left zero/unwritten), because the count is stored
before the allocation and never reset on this path. -/
theorem forward_oom_counterexample :
    (et_module_forward (some oneOutputDemoModule) [] none 0 true true
        false).status.code = .outOfMemory
    ∧ (et_module_forward (some oneOutputDemoModule) [] none 0 true true
        false).output_count_written = some 1
    ∧ (et_module_forward (some oneOutputDemoModule) [] none 0 true true
        false).outputs_written = some none := by
  refine ⟨rfl, rfl, rfl⟩

/-- C3 (amended): on every non-OK return of `et_module_forward` the
out-parameters are never partially populated, except on the output-array
allocation-failure path: Invalid-State, Invalid-Argument and engine-failure
returns leave both out-parameters unwritten; a conversion failure frees
everything built in the call, writes null to `*outputs`, zero to
`*output_count` and returns Inference-Failed; but when the output-array
`malloc` fails the status is Out-of-Memory with `*outputs` set to null while
`*output_count` keeps the already-written engine output count. -/
theorem forward_failure_outputs_amended (module : Option ETModule)
    (store : List ETTensor) (inputs : Option (List (Option Nat)))
    (input_count : Int) (onn ocn mok : Bool)
    (h : (et_module_forward module store inputs input_count onn ocn
        mok).status.code ≠ .ok) :
    ((et_module_forward module store inputs input_count onn ocn
          mok).outputs_written = none
      ∧ (et_module_forward module store inputs input_count onn ocn
          mok).output_count_written = none)
    ∨ ((et_module_forward module store inputs input_count onn ocn
          mok).status.code = .outOfMemory
      ∧ (et_module_forward module store inputs input_count onn ocn
          mok).outputs_written = some none
      ∧ ∃ n, (et_module_forward module store inputs input_count onn ocn
          mok).output_count_written = some n)
    ∨ ((et_module_forward module store inputs input_count onn ocn
          mok).status.code = .inferenceFailed
      ∧ (et_module_forward module store inputs input_count onn ocn
          mok).outputs_written = some none
      ∧ (et_module_forward module store inputs input_count onn ocn
          mok).output_count_written = some 0) := by
  rcases et_module_forward_shape module store inputs input_count onn ocn mok
    with ⟨h1, h2⟩ | ⟨m2, evs, heq⟩
  · exact Or.inl ⟨h1, h2⟩
  · rw [heq] at h ⊢
    exact run_engine_failure_outputs m2 evs store mok h

/-- Witness for the amended C3 at the allocation-failure input of the
counterexample. -/
theorem forward_failure_outputs_amended_witness :
    ((et_module_forward (some oneOutputDemoModule) [] none 0 true true
          false).outputs_written = none
      ∧ (et_module_forward (some oneOutputDemoModule) [] none 0 true true
          false).output_count_written = none)
    ∨ ((et_module_forward (some oneOutputDemoModule) [] none 0 true true
          false).status.code = .outOfMemory
      ∧ (et_module_forward (some oneOutputDemoModule) [] none 0 true true
          false).outputs_written = some none
      ∧ ∃ n, (et_module_forward (some oneOutputDemoModule) [] none 0 true true
          false).output_count_written = some n)
    ∨ ((et_module_forward (some oneOutputDemoModule) [] none 0 true true
          false).status.code = .inferenceFailed
      ∧ (et_module_forward (some oneOutputDemoModule) [] none 0 true true
          false).outputs_written = some none
      ∧ (et_module_forward (some oneOutputDemoModule) [] none 0 true true
          false).output_count_written = some 0) :=
  forward_failure_outputs_amended (some oneOutputDemoModule) [] none 0 true
    true false (by decide)
